import Mathlib

/-!
Verification of the LiteLLM key-management plugin of open-webui.

The development shallowly embeds the three Python modules that implement
the key store, the remote gateway client, and the HTTP router:

* `backend/open_webui/models/litellm_keys.py`  → namespace `LiteLLMKeys`
* `backend/open_webui/utils/litellm_client.py` → namespace `LiteLLMClient`
* `backend/open_webui/routers/litellm_keys.py` → namespace `Router`

Python strings are modelled as Lean `String`s whose slicing operations act
on the character list `s.data` (Python slices are code-point slices); the
SQL table backing the local store is modelled as a `List` of records in
insertion order, `query(...).filter(...).first()` as `List.find?`, and
per-request database sessions as explicit state passing.  Raised
exceptions become `Except` results.
-/

namespace LiteLLMKeys

/-- Embedding of the `litellm_key` table row / `LiteLLMKeyModel` pydantic
model from `models/litellm_keys.py`.  The ORM row and the transfer model
carry exactly the same fields, so a single structure serves as both.
`metadata` (a JSON dict in Python) is modelled as an association list. -/
structure LiteLLMKeyModel where
  id : String
  user_id : String
  key_name : String
  api_key : String
  key_type : String := "api_key"
  group_ids : Option (List String) := none
  is_active : Bool := true
  description : Option String := none
  metadata : Option (List (String × String)) := none
  created_at : Int
  updated_at : Int
  last_used_at : Option Int := none
deriving Repr, DecidableEq

/-- Embedding of `LiteLLMKeyCreateForm`. -/
structure LiteLLMKeyCreateForm where
  key_name : String
  api_key : String
  key_type : String := "api_key"
  group_ids : Option (List String) := none
  description : Option String := none
  metadata : Option (List (String × String)) := none
deriving Repr, DecidableEq

/-- Embedding of `LiteLLMKeyUpdateForm`: every field optional, `none`
meaning "not supplied" (Python `None`). -/
structure LiteLLMKeyUpdateForm where
  key_name : Option String := none
  api_key : Option String := none
  key_type : Option String := none
  group_ids : Option (List String) := none
  is_active : Option Bool := none
  description : Option String := none
  metadata : Option (List (String × String)) := none
deriving Repr, DecidableEq

/-- Embedding of `LiteLLMKeyListResponse`. -/
structure LiteLLMKeyListResponse where
  keys : List LiteLLMKeyModel
  total : Nat
deriving Repr, DecidableEq

/-- The persisted `litellm_key` table, in insertion order. -/
abbrev Store := List LiteLLMKeyModel

/-- Embedding of the `ValueError` raised by `create_key` / `update_key`
when a key name already exists for the owner (Python message:
`f"Key name '{name}' already exists"`). -/
inductive KeyError where
  | duplicateName (name : String)
deriving Repr, DecidableEq

/-- Embedding of `LiteLLMKeys._mask_api_key`: length `≤ 12` gives all asterisks,
otherwise first 8 characters, `len - 12` asterisks, last 4 characters
(`api_key[:8] + "*" * (len(api_key) - 12) + api_key[-4:]`). -/
def mask_api_key (api_key : String) : String :=
  if api_key.length ≤ 12 then
    ⟨List.replicate api_key.length '*'⟩
  else
    ⟨api_key.data.take 8 ++ List.replicate (api_key.length - 12) '*'
      ++ api_key.data.drop (api_key.data.length - 4)⟩

/-- The masking applied to a record before it is returned
(`key_model.api_key = LiteLLMKeys._mask_api_key(key_model.api_key)`). -/
def maskRecord (k : LiteLLMKeyModel) : LiteLLMKeyModel :=
  { k with api_key := mask_api_key k.api_key }

/-- Replace the first element satisfying `p` (the row returned by
`.first()`, mutated in place by the ORM) with `newK`. -/
def replaceFirst (p : LiteLLMKeyModel → Bool) (newK : LiteLLMKeyModel) :
    Store → Store
  | [] => []
  | k :: rest => if p k then newK :: rest else k :: replaceFirst p newK rest

/-- Remove the first element satisfying `p` (the row deleted by
`db.delete(key)` after `.first()`). -/
def removeFirst (p : LiteLLMKeyModel → Bool) : Store → Store
  | [] => []
  | k :: rest => if p k then rest else k :: removeFirst p rest

/-- Embedding of `LiteLLMKeys.create_key`.  The fresh row id (`uuid.uuid4()`) and the
clock reading (`int(time.time())`) are passed in as `newId` and `now`.
On the duplicate-name `ValueError` the transaction is rolled back, so the
store is returned unchanged alongside the error. -/
def create_key (user_id : String) (key_data : LiteLLMKeyCreateForm)
    (newId : String) (now : Int) (db : Store) :
    Except KeyError LiteLLMKeyModel × Store :=
  match db.find? (fun k => k.user_id == user_id && k.key_name == key_data.key_name) with
  | some _ => (.error (.duplicateName key_data.key_name), db)
  | none =>
    let newKey : LiteLLMKeyModel :=
      { id := newId
        user_id := user_id
        key_name := key_data.key_name
        api_key := key_data.api_key
        key_type := key_data.key_type
        group_ids := key_data.group_ids
        is_active := true
        description := key_data.description
        metadata := key_data.metadata
        created_at := now
        updated_at := now
        last_used_at := none }
    (.ok newKey, db ++ [newKey])

/-- Embedding of `LiteLLMKeys.get_keys_by_user_id`: count plus
`filter(user_id).offset(skip).limit(limit)`, each key masked. -/
def get_keys_by_user_id (user_id : String) (skip limit : Nat) (db : Store) :
    LiteLLMKeyListResponse :=
  let owned := db.filter (fun k => k.user_id == user_id)
  { keys := ((owned.drop skip).take limit).map maskRecord
    total := owned.length }

/-- The row filter of `get_key_by_id` / `update_key` / `delete_key`:
`LiteLLMKey.id == key_id, LiteLLMKey.user_id == user_id`. -/
def ownPred (key_id user_id : String) : LiteLLMKeyModel → Bool :=
  fun k => k.id == key_id && k.user_id == user_id

/-- Embedding of `LiteLLMKeys.get_key_by_id`: owner-scoped lookup, masked on success. -/
def get_key_by_id (key_id user_id : String) (db : Store) :
    Option LiteLLMKeyModel :=
  (db.find? (ownPred key_id user_id)).map maskRecord

/-- The in-place field assignments of `update_key`: each field of the
form that is not `None` overwrites the stored field, and
`key.updated_at = int(time.time())` is always applied. -/
def applyUpdate (k : LiteLLMKeyModel) (u : LiteLLMKeyUpdateForm) (now : Int) :
    LiteLLMKeyModel :=
  { k with
    key_name := u.key_name.getD k.key_name
    api_key := u.api_key.getD k.api_key
    key_type := u.key_type.getD k.key_type
    group_ids := match u.group_ids with
      | some g => some g
      | none => k.group_ids
    is_active := u.is_active.getD k.is_active
    description := match u.description with
      | some d => some d
      | none => k.description
    metadata := match u.metadata with
      | some m => some m
      | none => k.metadata
    updated_at := now }

/-- The duplicate-rename check of `update_key`:
`user_id == user_id, key_name == new_name, id != key_id`. -/
def renamePred (user_id newName key_id : String) : LiteLLMKeyModel → Bool :=
  fun k => k.user_id == user_id && k.key_name == newName && !(k.id == key_id)

/-- Embedding of `LiteLLMKeys.update_key`.  `None` when no owned row matches; the
duplicate-rename `ValueError` rolls the transaction back (store
unchanged); otherwise the row is updated in place, committed, and the
returned model is masked. -/
def update_key (key_id user_id : String) (update_data : LiteLLMKeyUpdateForm)
    (now : Int) (db : Store) :
    Except KeyError (Option LiteLLMKeyModel) × Store :=
  match db.find? (ownPred key_id user_id) with
  | none => (.ok none, db)
  | some key =>
    let dup := match update_data.key_name with
      | some newName => (db.find? (renamePred user_id newName key_id)).isSome
      | none => false
    if dup then
      (.error (.duplicateName (update_data.key_name.getD "")), db)
    else
      let updated := applyUpdate key update_data now
      (.ok (some (maskRecord updated)),
        replaceFirst (ownPred key_id user_id) updated db)

/-- Embedding of `LiteLLMKeys.delete_key`: `False` when no owned row matches, else the
row is removed and `True` returned.  The function is total, matching the
documented behaviour that deletion never raises for a missing id. -/
def delete_key (key_id user_id : String) (db : Store) : Bool × Store :=
  match db.find? (ownPred key_id user_id) with
  | none => (false, db)
  | some _ => (true, removeFirst (ownPred key_id user_id) db)

/-- The SQL array-overlap test `LiteLLMKey.group_ids.op('&&')(group_ids)`:
a `NULL` column never overlaps; otherwise true iff some stored group id
occurs in the queried list. -/
def groupsOverlap (stored : Option (List String)) (group_ids : List String) :
    Bool :=
  match stored with
  | none => false
  | some gs => gs.any (fun g => group_ids.contains g)

/-- Embedding of `LiteLLMKeys.get_keys_by_group_ids`: rows that are owned by the
requester or whose group list overlaps `group_ids`, further filtered by
`is_active == True`, each masked. -/
def get_keys_by_group_ids (group_ids : List String) (user_id : String)
    (db : Store) : List LiteLLMKeyModel :=
  (db.filter (fun k =>
      (k.user_id == user_id || groupsOverlap k.group_ids group_ids)
        && k.is_active)).map maskRecord

end LiteLLMKeys

namespace LiteLLMClient

/-- Embedding of `LiteLLMClient._mask_key`: Python
`if not api_key or len(api_key) <= 12: return "*" * (len(api_key) if api_key else 8)`;
a falsy (empty) string takes the 8-asterisk branch. -/
def mask_key (api_key : String) : String :=
  if api_key.length = 0 ∨ api_key.length ≤ 12 then
    ⟨List.replicate (if api_key.length = 0 then 8 else api_key.length) '*'⟩
  else
    ⟨api_key.data.take 8 ++ List.replicate (api_key.length - 12) '*'
      ++ api_key.data.drop (api_key.data.length - 4)⟩

/-- One entry of the `data` array returned by the remote `/key/info`
endpoint, restricted to the fields the client reads.  `user_id` is
`Option` because `key_info.get("user_id")` yields `None` when the field
is absent; `groups` and `api_key` default to `[]` / `""` as in
`key_info.get("groups", [])` / `key_info.get("api_key", "")`; the client
writes `is_shared` into the dict, absent (`false`) on input. -/
structure RemoteKey where
  user_id : Option String := none
  groups : List String := []
  api_key : String := ""
  is_active : Bool := true
  is_shared : Bool := false
deriving Repr, DecidableEq

/-- Embedding of `LiteLLMClient.get_user_keys` (success path, the fetched `data` array
passed in): keeps the entries whose `user_id` equals the requester and
masks each kept key. -/
def get_user_keys (user_id : String) (data : List RemoteKey) :
    List RemoteKey :=
  data.filterMap (fun key_info =>
    if key_info.user_id == some user_id then
      some { key_info with api_key := mask_key key_info.api_key }
    else none)

/-- Embedding of `LiteLLMClient.get_accessible_keys` (success path): keeps the entries
owned by the requester or whose `groups` meet `user_groups`; each kept
entry gets a masked key and `is_shared = (user_id != requester)`.  Note
that, unlike the local store, no `is_active` test is made. -/
def get_accessible_keys (user_id : String) (user_groups : List String)
    (data : List RemoteKey) : List RemoteKey :=
  data.filterMap (fun key_info =>
    if key_info.user_id == some user_id
        || key_info.groups.any (fun group => user_groups.contains group) then
      some { key_info with
              api_key := mask_key key_info.api_key
              is_shared := key_info.user_id != some user_id }
    else none)

/-- The `updates` dict accepted by `LiteLLMClient.update_user_key`,
restricted to the fields the client reads back out of it. -/
structure RemoteUpdates where
  key_name : Option String := none
  api_key : Option String := none
  groups : Option (List String) := none
  is_active : Option Bool := none
deriving Repr, DecidableEq

/-- The dict built and returned by `LiteLLMClient.update_user_key`
(success path).  The remote gateway receives the updates, but the
returned record is synthesized locally: `key_name` falls back to `""`,
`groups` to `[]`, `is_active` to `True`, and `api_key` is always
`self._mask_key("")` — the comment in the source reads "Never return the
actual key on updates". -/
structure RemoteUpdateResult where
  id : String
  user_id : String
  key_name : String
  api_key : String
  groups : List String
  is_active : Bool
deriving Repr, DecidableEq

/-- Embedding of `LiteLLMClient.update_user_key` (success path). -/
def update_user_key (key_id user_id : String) (updates : RemoteUpdates) :
    RemoteUpdateResult :=
  { id := key_id
    user_id := user_id
    key_name := updates.key_name.getD ""
    api_key := mask_key ""
    groups := updates.groups.getD []
    is_active := updates.is_active.getD true }

end LiteLLMClient

namespace Router

open LiteLLMKeys

/-- The authenticated user as produced by `get_verified_user`:
`{id, role, groups}` per the identity-provider contract. -/
structure UserModel where
  id : String
  role : String
deriving Repr, DecidableEq

/-- Embedding of `check_litellm_access`: `user.role in ["admin", "user"]`. -/
def check_litellm_access (user : UserModel) : Bool :=
  ["admin", "user"].contains user.role

/-- Outcome of the external `Groups.get_user_groups(user.id)` call: either
the list of group ids of the user's groups, or a raised exception. -/
abbrev GroupLookup := Except Unit (List String)

/-- Embedding of `get_user_groups`: maps the group ids on success and silently converts
a lookup failure to the empty list (`except Exception: return []`). -/
def get_user_groups (lookup : GroupLookup) : List String :=
  match lookup with
  | .ok gs => gs
  | .error _ => []

/-- An HTTP error response (`fastapi.HTTPException`). -/
structure HTTPException where
  status : Nat
  detail : String
deriving Repr, DecidableEq

/-- Detail of the 403 raised by every endpoint when
`check_litellm_access` fails. -/
def accessDeniedDetail : String := "Access denied to LiteLLM key management"

/-- Detail of the 400 raised when requested groups are outside the
caller's membership: `f"User is not a member of groups: {', '.join(invalid_groups)}"`. -/
def invalidGroupsDetail (invalid : List String) : String :=
  "User is not a member of groups: " ++ String.intercalate ", " invalid

/-- Rendering of `str(e)` for the duplicate-name `ValueError`
(`f"Key name '{name}' already exists"`; `\x27` is the apostrophe). -/
def duplicateNameDetail (name : String) : String :=
  "Key name \x27" ++ name ++ "\x27 already exists"

/-- The group-grant validation shared by the create and update endpoints:
`if form.group_ids:` (skipped when `None` or empty), then the invalid
subset `[gid for gid in group_ids if gid not in user_groups]` is computed
and a 400 naming it is raised when non-empty. -/
def validate_groups (requested : Option (List String))
    (lookup : GroupLookup) : Option HTTPException :=
  match requested with
  | none => none
  | some gids =>
    if gids.isEmpty then none
    else
      let user_groups := get_user_groups lookup
      let invalid := gids.filter (fun gid => !user_groups.contains gid)
      if invalid.isEmpty then none
      else some ⟨400, invalidGroupsDetail invalid⟩

/-- Endpoint `GET /` (`get_litellm_keys`).  The whole body sits in a
`try/except Exception` with no prior `except HTTPException: raise`
clause, so the 403 raised for a denied role is caught and replaced by a
500 "Failed to retrieve LiteLLM keys". -/
def get_litellm_keys (user : UserModel) (skip limit : Nat) (db : Store) :
    Except HTTPException LiteLLMKeyListResponse :=
  let body : Except HTTPException LiteLLMKeyListResponse :=
    if !check_litellm_access user then
      .error ⟨403, accessDeniedDetail⟩
    else
      .ok (get_keys_by_user_id user.id skip limit db)
  match body with
  | .error _ => .error ⟨500, "Failed to retrieve LiteLLM keys"⟩
  | .ok r => .ok r

/-- Endpoint `GET /{key_id}` (`get_litellm_key`): here `except HTTPException:
raise` precedes the generic handler, so the 403/404 surface unchanged. -/
def get_litellm_key (key_id : String) (user : UserModel) (db : Store) :
    Except HTTPException LiteLLMKeyModel :=
  if !check_litellm_access user then
    .error ⟨403, accessDeniedDetail⟩
  else
    match get_key_by_id key_id user.id db with
    | none => .error ⟨404, "LiteLLM key not found"⟩
    | some key => .ok key

/-- Endpoint `POST /` (`create_litellm_key`): access gate, group-grant validation,
then the store call; the duplicate-name `ValueError` becomes a 400 whose
detail is `str(e)`. -/
def create_litellm_key (user : UserModel) (key_data : LiteLLMKeyCreateForm)
    (lookup : GroupLookup) (newId : String) (now : Int) (db : Store) :
    Except HTTPException LiteLLMKeyModel × Store :=
  if !check_litellm_access user then
    (.error ⟨403, accessDeniedDetail⟩, db)
  else
    match validate_groups key_data.group_ids lookup with
    | some err => (.error err, db)
    | none =>
      match create_key user.id key_data newId now db with
      | (.ok key, db') => (.ok key, db')
      | (.error (.duplicateName name), db') =>
        (.error ⟨400, duplicateNameDetail name⟩, db')

/-- Endpoint `PUT /{key_id}` (`update_litellm_key`): access gate, group-grant
validation, store call; `None` from the store becomes a 404 and the
duplicate-name `ValueError` a 400. -/
def update_litellm_key (user : UserModel) (key_id : String)
    (update_data : LiteLLMKeyUpdateForm) (lookup : GroupLookup) (now : Int)
    (db : Store) : Except HTTPException LiteLLMKeyModel × Store :=
  if !check_litellm_access user then
    (.error ⟨403, accessDeniedDetail⟩, db)
  else
    match validate_groups update_data.group_ids lookup with
    | some err => (.error err, db)
    | none =>
      match update_key key_id user.id update_data now db with
      | (.ok none, db') => (.error ⟨404, "LiteLLM key not found"⟩, db')
      | (.ok (some key), db') => (.ok key, db')
      | (.error (.duplicateName name), db') =>
        (.error ⟨400, duplicateNameDetail name⟩, db')

/-- Endpoint `DELETE /{key_id}` (`delete_litellm_key`): a `False` from the store
becomes a 404, a `True` the success message. -/
def delete_litellm_key (user : UserModel) (key_id : String) (db : Store) :
    Except HTTPException String × Store :=
  if !check_litellm_access user then
    (.error ⟨403, accessDeniedDetail⟩, db)
  else
    match delete_key key_id user.id db with
    | (false, db') => (.error ⟨404, "LiteLLM key not found"⟩, db')
    | (true, db') => (.ok "LiteLLM key deleted successfully", db')

/-- Endpoint `GET /groups/accessible` (`get_accessible_litellm_keys`): access gate,
then `if not user_groups: return []`, otherwise the store query. -/
def get_accessible_litellm_keys (user : UserModel) (lookup : GroupLookup)
    (db : Store) : Except HTTPException (List LiteLLMKeyModel) :=
  if !check_litellm_access user then
    .error ⟨403, accessDeniedDetail⟩
  else
    let user_groups := get_user_groups lookup
    if user_groups.isEmpty then
      .ok []
    else
      .ok (get_keys_by_group_ids user_groups user.id db)

end Router

/-! ## Concrete sample data used by witnesses and counterexamples -/

/-- Sample creation form used by the C1 witness. -/
def wCreateForm : LiteLLMKeys.LiteLLMKeyCreateForm :=
  { key_name := "k1", api_key := "sk-abcdef1234567890" }

/-- The record `create_key` stores for `wCreateForm` on an empty store. -/
def wCreatedRec : LiteLLMKeys.LiteLLMKeyModel :=
  { id := "id1", user_id := "u1", key_name := "k1"
    api_key := "sk-abcdef1234567890", created_at := 0, updated_at := 0 }

/-- The inactive, group-shared record of the C4 counterexample and the
C3 witness. -/
def c4rec : LiteLLMKeys.LiteLLMKeyModel :=
  { id := "k1", user_id := "u1", key_name := "n1", api_key := "secret"
    group_ids := some ["g1"], is_active := false
    created_at := 0, updated_at := 0 }

/-- The stored record used by the C7 and C8 witnesses. -/
def wuRec : LiteLLMKeys.LiteLLMKeyModel :=
  { id := "k1", user_id := "u1", key_name := "n1"
    api_key := "sk-abcdef1234567890", created_at := 0, updated_at := 0 }

/-- The rename-to-own-name partial update of the C7 witness. -/
def wuForm : LiteLLMKeys.LiteLLMKeyUpdateForm :=
  { key_name := some "n1", description := some "d" }


/-! ## Masking lemmas -/

namespace LiteLLMKeys

lemma mask_api_key_data_of_le {s : String} (h : s.length ≤ 12) :
    (mask_api_key s).data = List.replicate s.length '*' := by
  simp [mask_api_key, h]

lemma mask_api_key_data_of_gt {s : String} (h : 12 < s.length) :
    (mask_api_key s).data =
      s.data.take 8 ++ List.replicate (s.length - 12) '*'
        ++ s.data.drop (s.data.length - 4) := by
  simp [mask_api_key, Nat.not_le.mpr h]

lemma string_length_eq (s : String) : s.length = s.data.length := rfl

lemma mask_api_key_length (s : String) :
    (mask_api_key s).length = s.length := by
  by_cases h : s.length ≤ 12
  · rw [string_length_eq, mask_api_key_data_of_le h, List.length_replicate]
  · push_neg at h
    rw [string_length_eq, mask_api_key_data_of_gt h]
    have hd : s.length = s.data.length := string_length_eq s
    simp [List.length_append, List.length_take, List.length_replicate,
      List.length_drop]
    omega

lemma mask_api_key_all_stars {s : String} (h : s.length ≤ 12) :
    ∀ c ∈ (mask_api_key s).data, c = '*' := by
  rw [mask_api_key_data_of_le h]
  intro c hc
  exact List.eq_of_mem_replicate hc

lemma take_length_eight {s : String} (h : 12 < s.length) :
    (s.data.take 8).length = 8 := by
  rw [List.length_take]
  have := string_length_eq s
  omega

lemma mask_api_key_take_eight {s : String} (h : 12 < s.length) :
    (mask_api_key s).data.take 8 = s.data.take 8 := by
  rw [mask_api_key_data_of_gt h, List.append_assoc,
    List.take_append_of_le_length (by rw [take_length_eight h]),
    List.take_take]
  simp

lemma mask_api_key_drop_tail {s : String} (h : 12 < s.length) :
    (mask_api_key s).data.drop (s.length - 4) =
      s.data.drop (s.length - 4) := by
  have hd : s.length = s.data.length := string_length_eq s
  rw [mask_api_key_data_of_gt h]
  have hlen : (s.data.take 8 ++ List.replicate (s.length - 12) '*').length
      = s.length - 4 := by
    rw [List.length_append, List.length_take, List.length_replicate]
    omega
  rw [List.drop_left' hlen, ← hd]

lemma mask_api_key_middle_stars {s : String} (h : 12 < s.length) :
    ∀ c ∈ ((mask_api_key s).data.drop 8).take (s.length - 12), c = '*' := by
  rw [mask_api_key_data_of_gt h, List.append_assoc,
    List.drop_left' (take_length_eight h),
    List.take_append_of_le_length (by rw [List.length_replicate]),
    List.take_of_length_le (by rw [List.length_replicate])]
  intro c hc
  exact List.eq_of_mem_replicate hc

end LiteLLMKeys

namespace LiteLLMClient

lemma mask_key_eq_of_ne_zero {s : String} (h : s.length ≠ 0) :
    mask_key s = LiteLLMKeys.mask_api_key s := by
  by_cases h12 : s.length ≤ 12 <;>
    simp [mask_key, LiteLLMKeys.mask_api_key, h, h12]

end LiteLLMClient

/-- C2 counterexample: the claim asserts `len(mask(s)) == len(s)` for both
maskers including the empty string, but the remote client's masker maps
the empty string to eight asterisks (`"*" * (len(api_key) if api_key else 8)`),
so its length is 8, not 0. -/
theorem mask_key_empty_cex :
    (LiteLLMClient.mask_key "").length ≠ ("" : String).length := by
  decide

/-- C2 (amended): both maskers preserve length, blank out short secrets and
keep the 8-character head and 4-character tail of long secrets with only
asterisks between — the local masker for every string, the remote client's
masker for every nonempty string (on which it agrees with the local one);
on the empty string the remote masker instead returns eight asterisks. -/
theorem masking_spec :
    (∀ s : String,
        (LiteLLMKeys.mask_api_key s).length = s.length
        ∧ (s.length ≤ 12 → ∀ c ∈ (LiteLLMKeys.mask_api_key s).data, c = '*')
        ∧ (12 < s.length →
            (LiteLLMKeys.mask_api_key s).data.take 8 = s.data.take 8
            ∧ (LiteLLMKeys.mask_api_key s).data.drop (s.length - 4)
                = s.data.drop (s.length - 4)
            ∧ ∀ c ∈ ((LiteLLMKeys.mask_api_key s).data.drop 8).take
                (s.length - 12), c = '*'))
    ∧ (∀ s : String, s.length ≠ 0 →
        LiteLLMClient.mask_key s = LiteLLMKeys.mask_api_key s)
    ∧ LiteLLMClient.mask_key "" = "********" := by
  refine ⟨fun s => ⟨LiteLLMKeys.mask_api_key_length s,
    fun h => LiteLLMKeys.mask_api_key_all_stars h,
    fun h => ⟨LiteLLMKeys.mask_api_key_take_eight h,
      LiteLLMKeys.mask_api_key_drop_tail h,
      LiteLLMKeys.mask_api_key_middle_stars h⟩⟩,
    fun s h => LiteLLMClient.mask_key_eq_of_ne_zero h, ?_⟩
  decide

/-- Witness for C2: the masking properties evaluated on the concrete
19-character secret `"sk-abcdef1234567890"` and agreement of the two
maskers on `"abc"`. -/
theorem masking_spec_witness :
    (LiteLLMKeys.mask_api_key "sk-abcdef1234567890").data.take 8
        = ("sk-abcdef1234567890" : String).data.take 8
    ∧ LiteLLMClient.mask_key "abc" = LiteLLMKeys.mask_api_key "abc" :=
  ⟨((masking_spec.1 "sk-abcdef1234567890").2.2 (by decide)).1,
    masking_spec.2.1 "abc" (by decide)⟩

/-! ## Store lemmas -/

namespace LiteLLMKeys

lemma mem_replaceFirst_of_find?_isSome {p : LiteLLMKeyModel → Bool}
    {x : LiteLLMKeyModel} {l : Store} (h : (l.find? p).isSome) :
    x ∈ replaceFirst p x l := by
  induction l with
  | nil => simp [List.find?] at h
  | cons a t ih =>
    by_cases hpa : p a
    · simp [replaceFirst, hpa]
    · rw [List.find?_cons_of_neg _ hpa] at h
      simp [replaceFirst, hpa, ih h]

lemma find?_removeFirst_eq_none {p : LiteLLMKeyModel → Bool} {l : Store}
    (h : l.Pairwise (fun a b => ¬(p a = true ∧ p b = true))) :
    (removeFirst p l).find? p = none := by
  induction l with
  | nil => simp [removeFirst]
  | cons a t ih =>
    rcases List.pairwise_cons.mp h with ⟨ha, ht⟩
    by_cases hpa : p a
    · rw [removeFirst, if_pos hpa]
      rw [List.find?_eq_none]
      intro x hx hpx
      exact ha x hx ⟨hpa, hpx⟩
    · rw [removeFirst, if_neg hpa, List.find?_cons_of_neg _ hpa]
      exact ih ht

end LiteLLMKeys

/-! ## Claim theorems about the local store -/

open LiteLLMKeys in
/-- C1: for the local store, only the immediate create response carries the
raw secret: `create_key` returns the stored record with the secret
verbatim, while every record returned by `get_key_by_id`,
`get_keys_by_user_id`, `update_key` and `get_keys_by_group_ids` is the
masked image of a stored record. -/
theorem secret_exposure :
    (∀ uid form newId now db r db',
        create_key uid form newId now db = (.ok r, db') →
        r.api_key = form.api_key ∧ r ∈ db')
    ∧ (∀ kid uid db r, get_key_by_id kid uid db = some r →
        ∃ k, k ∈ db ∧ r = maskRecord k)
    ∧ (∀ uid skip limit db r,
        r ∈ (get_keys_by_user_id uid skip limit db).keys →
        ∃ k, k ∈ db ∧ r = maskRecord k)
    ∧ (∀ kid uid u now db r db',
        update_key kid uid u now db = (.ok (some r), db') →
        ∃ k, k ∈ db' ∧ r = maskRecord k)
    ∧ (∀ gids uid db r, r ∈ get_keys_by_group_ids gids uid db →
        ∃ k, k ∈ db ∧ r = maskRecord k) := by
  refine ⟨?_, ?_, ?_, ?_, ?_⟩
  · intro uid form newId now db r db' h
    rw [create_key] at h
    cases hf : db.find? (fun k => k.user_id == uid && k.key_name == form.key_name) with
    | some k => rw [hf] at h; simp at h
    | none =>
      rw [hf] at h
      simp only [Prod.mk.injEq, Except.ok.injEq] at h
      rcases h with ⟨hr, hdb⟩
      subst hr hdb
      exact ⟨rfl, by simp⟩
  · intro kid uid db r h
    rw [get_key_by_id] at h
    rcases Option.map_eq_some'.mp h with ⟨k, hk, hr⟩
    exact ⟨k, List.mem_of_find?_eq_some hk, hr.symm⟩
  · intro uid skip limit db r h
    rw [get_keys_by_user_id] at h
    rcases List.mem_map.mp h with ⟨k, hk, hr⟩
    refine ⟨k, ?_, hr.symm⟩
    exact (List.mem_filter.mp
      (List.mem_of_mem_drop (List.mem_of_mem_take hk))).1
  · intro kid uid u now db r db' h
    rw [update_key] at h
    cases hf : db.find? (ownPred kid uid) with
    | none => rw [hf] at h; simp at h
    | some key =>
      rw [hf] at h
      dsimp only at h
      by_cases hdup : (match u.key_name with
        | some newName => (db.find? (renamePred uid newName kid)).isSome
        | none => false)
      · rw [if_pos hdup] at h; simp at h
      · rw [if_neg hdup] at h
        simp only [Prod.mk.injEq, Except.ok.injEq, Option.some.injEq] at h
        rcases h with ⟨hr, hdb⟩
        subst hdb
        exact ⟨applyUpdate key u now,
          mem_replaceFirst_of_find?_isSome (by rw [hf]; rfl), hr.symm⟩
  · intro gids uid db r h
    rw [get_keys_by_group_ids] at h
    rcases List.mem_map.mp h with ⟨k, hk, hr⟩
    exact ⟨k, (List.mem_filter.mp hk).1, hr.symm⟩


/-- Witness for C1: on the empty store, creating `wCreateForm` returns the
raw secret verbatim inside the stored record, and a subsequent owner `get`
returns the masked image of a stored record. -/
theorem secret_exposure_witness :
    (wCreatedRec.api_key = wCreateForm.api_key ∧ wCreatedRec ∈ [wCreatedRec])
    ∧ ∃ k, k ∈ [wCreatedRec]
        ∧ LiteLLMKeys.maskRecord wCreatedRec = LiteLLMKeys.maskRecord k :=
  ⟨secret_exposure.1 "u1" wCreateForm "id1" 0 [] wCreatedRec [wCreatedRec]
      (by rfl),
    secret_exposure.2.1 "id1" "u1" [wCreatedRec]
      (LiteLLMKeys.maskRecord wCreatedRec) (by rfl)⟩

open LiteLLMKeys in
/-- C3: a requester `A` acting on a key id all of whose stored records are
owned by someone else gets `None` from `get_key_by_id`, `None` (store
untouched) from `update_key`, and `False` (store untouched) from
`delete_key` — the owner filter `id == key_id AND user_id == user_id`
never matches, so no read, mutation or deletion occurs; mutation stays
owner-only even when a shared active group exists. -/
theorem ownership_isolation (db : Store) (kid A : String)
    (u : LiteLLMKeyUpdateForm) (now : Int)
    (h : ∀ k ∈ db, k.id = kid → k.user_id ≠ A) :
    get_key_by_id kid A db = none
    ∧ update_key kid A u now db = (.ok none, db)
    ∧ delete_key kid A db = (false, db) := by
  have hf : db.find? (ownPred kid A) = none := by
    rw [List.find?_eq_none]
    intro k hk
    simp only [ownPred, Bool.and_eq_true, beq_iff_eq, not_and]
    exact h k hk
  refine ⟨?_, ?_, ?_⟩
  · simp [get_key_by_id, hf]
  · rw [update_key, hf]
  · rw [delete_key, hf]


/-- Witness for C3: requester `"u2"` cannot get, update or delete the
record of `"u1"` even though they share the group `"g1"`. -/
theorem ownership_isolation_witness :
    LiteLLMKeys.get_key_by_id "k1" "u2" [c4rec] = none
    ∧ LiteLLMKeys.update_key "k1" "u2" { is_active := some true } 5 [c4rec]
        = (.ok none, [c4rec])
    ∧ LiteLLMKeys.delete_key "k1" "u2" [c4rec] = (false, [c4rec]) :=
  ownership_isolation [c4rec] "k1" "u2" { is_active := some true } 5
    (by decide)

/-- C4 counterexample: the claim includes every record owned by the
requester in the `listAccessible` result, but the local store filters the
whole union by `is_active == True`, so the requester's own inactive record
is omitted. -/
theorem list_accessible_cex :
    c4rec.user_id = "u1"
    ∧ LiteLLMKeys.get_keys_by_group_ids ["g1"] "u1" [c4rec] = [] := by
  constructor
  · rfl
  · rfl

/-- C4 (amended): the local store's `listAccessible` returns exactly the
masked images of the *active* stored records that are owned by the
requester or whose group list meets the requester's groups — the
`is_active` filter also prunes the requester's own records, and the local
record carries no shared flag; the remote variant returns exactly the
masked images of the fetched records that are owned by the requester or
group-overlapping, with no activity test at all, each flagged
`is_shared = (owner != requester)`. -/
theorem list_accessible_spec :
    (∀ gids uid db r, r ∈ LiteLLMKeys.get_keys_by_group_ids gids uid db ↔
        ∃ k, k ∈ db
          ∧ (k.user_id = uid ∨ LiteLLMKeys.groupsOverlap k.group_ids gids = true)
          ∧ k.is_active = true
          ∧ r = LiteLLMKeys.maskRecord k)
    ∧ (∀ uid ugroups data r,
        r ∈ LiteLLMClient.get_accessible_keys uid ugroups data ↔
        ∃ k, k ∈ data
          ∧ (k.user_id = some uid ∨ ∃ g ∈ k.groups, g ∈ ugroups)
          ∧ r = { k with
                  api_key := LiteLLMClient.mask_key k.api_key
                  is_shared := k.user_id != some uid }) := by
  constructor
  · intro gids uid db r
    simp only [LiteLLMKeys.get_keys_by_group_ids, List.mem_map,
      List.mem_filter, Bool.and_eq_true, Bool.or_eq_true, beq_iff_eq]
    constructor
    · rintro ⟨k, ⟨hk, hcond, hact⟩, hr⟩
      exact ⟨k, hk, hcond, hact, hr.symm⟩
    · rintro ⟨k, hk, hcond, hact, hr⟩
      exact ⟨k, ⟨hk, hcond, hact⟩, hr.symm⟩
  · intro uid ugroups data r
    simp only [LiteLLMClient.get_accessible_keys, List.mem_filterMap]
    constructor
    · rintro ⟨k, hk, hf⟩
      by_cases hc : (k.user_id == some uid
          || k.groups.any fun group => ugroups.contains group) = true
      · rw [if_pos hc] at hf
        refine ⟨k, hk, ?_, (Option.some.inj hf).symm⟩
        simpa only [Bool.or_eq_true, beq_iff_eq, List.any_eq_true,
          List.contains, List.elem_eq_mem, decide_eq_true_eq] using hc
      · rw [if_neg hc] at hf
        exact absurd hf (by simp)
    · rintro ⟨k, hk, hcond, hr⟩
      refine ⟨k, hk, ?_⟩
      have hc : (k.user_id == some uid
          || k.groups.any fun group => ugroups.contains group) = true := by
        simpa only [Bool.or_eq_true, beq_iff_eq, List.any_eq_true,
          List.contains, List.elem_eq_mem, decide_eq_true_eq] using hcond
      rw [if_pos hc, hr]

namespace Router

lemma validate_groups_eq_some {requested : Option (List String)}
    {lookup : GroupLookup}
    (h : (requested.getD []).filter
        (fun gid => !(get_user_groups lookup).contains gid) ≠ []) :
    validate_groups requested lookup
      = some ⟨400, invalidGroupsDetail ((requested.getD []).filter
          (fun gid => !(get_user_groups lookup).contains gid))⟩ := by
  cases requested with
  | none => simp at h
  | some gids =>
    rw [validate_groups]
    have hgne : ¬ gids.isEmpty = true := by
      intro hg
      rw [List.isEmpty_iff.mp hg] at h
      simp at h
    rw [if_neg hgne]
    dsimp only
    rw [if_neg (by simpa [List.isEmpty_iff, Option.getD] using h)]
    rfl

end Router

open LiteLLMKeys in
/-- C5: when the requested group list of a create or update contains ids
outside the caller's own group membership, the endpoint answers a 400
whose detail names exactly the requested-but-not-belonged group ids (the
filter of the requested list against the membership list), and the store
is returned unchanged — no record is created or mutated. -/
theorem invalid_groups_rejected (user : Router.UserModel)
    (lookup : Router.GroupLookup) (cform : LiteLLMKeyCreateForm)
    (uform : LiteLLMKeyUpdateForm) (kid newId : String) (now : Int)
    (db : Store)
    (haccess : Router.check_litellm_access user = true)
    (hc : (cform.group_ids.getD []).filter
        (fun gid => !(Router.get_user_groups lookup).contains gid) ≠ [])
    (hu : (uform.group_ids.getD []).filter
        (fun gid => !(Router.get_user_groups lookup).contains gid) ≠ []) :
    Router.create_litellm_key user cform lookup newId now db
      = (.error ⟨400, Router.invalidGroupsDetail
            ((cform.group_ids.getD []).filter
              (fun gid => !(Router.get_user_groups lookup).contains gid))⟩, db)
    ∧ Router.update_litellm_key user kid uform lookup now db
      = (.error ⟨400, Router.invalidGroupsDetail
            ((uform.group_ids.getD []).filter
              (fun gid => !(Router.get_user_groups lookup).contains gid))⟩, db) := by
  constructor
  · rw [Router.create_litellm_key, if_neg (by rw [haccess]; simp),
      Router.validate_groups_eq_some hc]
  · rw [Router.update_litellm_key, if_neg (by rw [haccess]; simp),
      Router.validate_groups_eq_some hu]

/-- Witness for C5: a caller in group `"g1"` requesting `["g1", "g2"]` on
create and `["g2"]` on update is rejected with a 400 naming exactly
`"g2"`, and the store (here one record) is untouched. -/
theorem invalid_groups_rejected_witness :
    Router.create_litellm_key ⟨"u1", "user"⟩
        { key_name := "k2", api_key := "s", group_ids := some ["g1", "g2"] }
        (.ok ["g1"]) "id2" 3 [c4rec]
      = (.error ⟨400, Router.invalidGroupsDetail ["g2"]⟩, [c4rec])
    ∧ Router.update_litellm_key ⟨"u1", "user"⟩ "k1"
        { group_ids := some ["g2"] } (.ok ["g1"]) 3 [c4rec]
      = (.error ⟨400, Router.invalidGroupsDetail ["g2"]⟩, [c4rec]) :=
  invalid_groups_rejected ⟨"u1", "user"⟩ (.ok ["g1"])
    { key_name := "k2", api_key := "s", group_ids := some ["g1", "g2"] }
    { group_ids := some ["g2"] } "k1" "id2" 3 [c4rec]
    (by decide) (by decide) (by decide)

open LiteLLMKeys in
/-- C6: starting from a store with no record named `form1.key_name` for
owner `uid`, the first create succeeds and appends the record, and a
second create for the same owner with the same name (whatever else the
second form or its id/timestamp are, i.e. in either order of the two
requests) fails with the duplicate-name error and leaves the store
unchanged. -/
theorem duplicate_name_spec (db : Store) (uid : String)
    (form1 form2 : LiteLLMKeyCreateForm) (id1 id2 : String) (now1 now2 : Int)
    (hfresh : db.find?
        (fun k => k.user_id == uid && k.key_name == form1.key_name) = none)
    (hsame : form2.key_name = form1.key_name) :
    ∃ r, create_key uid form1 id1 now1 db = (.ok r, db ++ [r])
      ∧ create_key uid form2 id2 now2 (db ++ [r])
          = (.error (.duplicateName form2.key_name), db ++ [r]) := by
  refine ⟨{ id := id1, user_id := uid, key_name := form1.key_name
            api_key := form1.api_key, key_type := form1.key_type
            group_ids := form1.group_ids, is_active := true
            description := form1.description, metadata := form1.metadata
            created_at := now1, updated_at := now1, last_used_at := none },
    ?_, ?_⟩
  · rw [create_key, hfresh]
  · rw [create_key, hsame, List.find?_append, hfresh]
    simp [List.find?]

/-- Witness for C6: creating `"k1"` twice for owner `"u1"` on an empty
store succeeds once and then fails with the duplicate-name error. -/
theorem duplicate_name_spec_witness :
    ∃ r, LiteLLMKeys.create_key "u1" wCreateForm "id1" 0 []
          = (.ok r, [] ++ [r])
      ∧ LiteLLMKeys.create_key "u1" { key_name := "k1", api_key := "other" }
            "id2" 1 ([] ++ [r])
          = (.error (.duplicateName "k1"), [] ++ [r]) :=
  duplicate_name_spec [] "u1" wCreateForm
    { key_name := "k1", api_key := "other" } "id1" "id2" 0 1 rfl rfl

/-- C7 counterexample: the claim extends the update contract — in
particular "the returned record carries the masked secret" — to both
store variants, but the remote client's `update_user_key` always returns
`self._mask_key("")` (eight asterisks) as the secret, which is not the
masked form of the secret the partial just stored. -/
theorem remote_update_secret_cex :
    (LiteLLMClient.update_user_key "key-1" "u1"
        { api_key := some "sk-abcdef1234567890ab" }).api_key
      ≠ LiteLLMClient.mask_key "sk-abcdef1234567890ab" := by
  decide

namespace LiteLLMKeys

lemma ownPred_eq_true {key_id user_id : String} {k : LiteLLMKeyModel}
    (h : ownPred key_id user_id k = true) :
    k.id = key_id ∧ k.user_id = user_id := by
  simpa [ownPred] using h

end LiteLLMKeys

open LiteLLMKeys in
/-- C7 (amended): for the *local* store, updating a found owned record —
when the rename target, if any, is the record's current name (legal
because the uniqueness check excludes the record's own id) or a name no
record of this owner carries — applies exactly the non-`None` fields of
the partial, leaves every other stored field unchanged except the
refreshed update timestamp, and returns the masked secret.  The remote
variant does not satisfy this contract: it performs no uniqueness check
and synthesizes its response with the constant mask of the empty string
(see the counterexample). -/
theorem update_key_spec (db : Store) (kid uid : String)
    (u : LiteLLMKeyUpdateForm) (now : Int) (key : LiteLLMKeyModel)
    (hfind : db.find? (ownPred kid uid) = some key)
    (huniq : ∀ k1 ∈ db, ∀ k2 ∈ db, k1.user_id = k2.user_id →
        k1.key_name = k2.key_name → k1.id = k2.id)
    (hname : ∀ n, u.key_name = some n → n = key.key_name ∨
        ∀ k2 ∈ db, k2.user_id = uid → k2.key_name ≠ n) :
    update_key kid uid u now db
      = (.ok (some (maskRecord (applyUpdate key u now))),
          replaceFirst (ownPred kid uid) (applyUpdate key u now) db)
    ∧ (applyUpdate key u now).id = key.id
    ∧ (applyUpdate key u now).user_id = key.user_id
    ∧ (applyUpdate key u now).created_at = key.created_at
    ∧ (applyUpdate key u now).last_used_at = key.last_used_at
    ∧ (applyUpdate key u now).updated_at = now
    ∧ (u.key_name = none → (applyUpdate key u now).key_name = key.key_name)
    ∧ (∀ v, u.key_name = some v → (applyUpdate key u now).key_name = v)
    ∧ (u.api_key = none → (applyUpdate key u now).api_key = key.api_key)
    ∧ (∀ v, u.api_key = some v → (applyUpdate key u now).api_key = v)
    ∧ (u.key_type = none → (applyUpdate key u now).key_type = key.key_type)
    ∧ (∀ v, u.key_type = some v → (applyUpdate key u now).key_type = v)
    ∧ (u.group_ids = none → (applyUpdate key u now).group_ids = key.group_ids)
    ∧ (∀ v, u.group_ids = some v → (applyUpdate key u now).group_ids = some v)
    ∧ (u.is_active = none → (applyUpdate key u now).is_active = key.is_active)
    ∧ (∀ v, u.is_active = some v → (applyUpdate key u now).is_active = v)
    ∧ (u.description = none →
        (applyUpdate key u now).description = key.description)
    ∧ (∀ v, u.description = some v →
        (applyUpdate key u now).description = some v)
    ∧ (u.metadata = none → (applyUpdate key u now).metadata = key.metadata)
    ∧ (∀ v, u.metadata = some v → (applyUpdate key u now).metadata = some v)
    ∧ (maskRecord (applyUpdate key u now)).api_key
        = mask_api_key (applyUpdate key u now).api_key := by
  have hkey_mem : key ∈ db := List.mem_of_find?_eq_some hfind
  have hkp := ownPred_eq_true (List.find?_some hfind)
  have hdup : (match u.key_name with
      | some newName => (db.find? (renamePred uid newName kid)).isSome
      | none => false) = false := by
    cases hn : u.key_name with
    | none => rfl
    | some n =>
      dsimp only
      suffices hfn : db.find? (renamePred uid n kid) = none by
        rw [hfn]; rfl
      rw [List.find?_eq_none]
      intro x hx hpx
      have hxp : x.user_id = uid ∧ x.key_name = n ∧ x.id ≠ kid := by
        simpa [renamePred, and_assoc] using hpx
      rcases hname n hn with hself | hfresh
      · subst hself
        exact hxp.2.2 (huniq x hx key hkey_mem (hxp.1.trans hkp.2.symm)
          hxp.2.1 ▸ hkp.1)
      · exact hfresh x hx hxp.1 hxp.2.1
  refine ⟨?_, rfl, rfl, rfl, rfl, rfl,
    (fun h => by simp [applyUpdate, h]),
    (fun v h => by simp [applyUpdate, h]),
    (fun h => by simp [applyUpdate, h]),
    (fun v h => by simp [applyUpdate, h]),
    (fun h => by simp [applyUpdate, h]),
    (fun v h => by simp [applyUpdate, h]),
    (fun h => by simp [applyUpdate, h]),
    (fun v h => by simp [applyUpdate, h]),
    (fun h => by simp [applyUpdate, h]),
    (fun v h => by simp [applyUpdate, h]),
    (fun h => by simp [applyUpdate, h]),
    (fun v h => by simp [applyUpdate, h]),
    (fun h => by simp [applyUpdate, h]),
    (fun v h => by simp [applyUpdate, h]),
    rfl⟩
  rw [update_key, hfind]
  dsimp only
  rw [hdup]
  simp


/-- Witness for C7: renaming the record to its current name together with
a description change succeeds, returns the masked record, and refreshes
the update timestamp. -/
theorem update_key_spec_witness :
    LiteLLMKeys.update_key "k1" "u1" wuForm 7 [wuRec]
      = (.ok (some (LiteLLMKeys.maskRecord
            (LiteLLMKeys.applyUpdate wuRec wuForm 7))),
          LiteLLMKeys.replaceFirst (LiteLLMKeys.ownPred "k1" "u1")
            (LiteLLMKeys.applyUpdate wuRec wuForm 7) [wuRec])
    ∧ (LiteLLMKeys.applyUpdate wuRec wuForm 7).updated_at = 7 :=
  have h := update_key_spec [wuRec] "k1" "u1" wuForm 7 wuRec
    (by decide) (by decide) (fun n hn => Or.inl (Option.some.inj hn).symm)
  ⟨h.1, h.2.2.2.2.2.1⟩

open LiteLLMKeys in
/-- C8: over a store with pairwise-distinct record ids, `delete_key`
returns `False` and leaves the store unchanged whenever no stored record
has the requested id with the requester as owner (nonexistent id, foreign
owner, or already deleted), and returns `True` removing the record when
one exists; deleting again immediately afterwards returns `False` with
the store unchanged.  The embedded function is total, so no call can
raise. -/
theorem delete_key_spec (db : Store) (kid uid : String)
    (hid : db.Pairwise (fun a b => a.id ≠ b.id)) :
    (db.find? (ownPred kid uid) = none →
        delete_key kid uid db = (false, db))
    ∧ (∀ k, db.find? (ownPred kid uid) = some k →
        delete_key kid uid db = (true, removeFirst (ownPred kid uid) db)
        ∧ delete_key kid uid (removeFirst (ownPred kid uid) db)
            = (false, removeFirst (ownPred kid uid) db)) := by
  constructor
  · intro h
    rw [delete_key, h]
  · intro k hk
    have hpair : db.Pairwise (fun a b =>
        ¬(ownPred kid uid a = true ∧ ownPred kid uid b = true)) := by
      refine hid.imp ?_
      rintro a b hab ⟨ha, hb⟩
      exact hab ((ownPred_eq_true ha).1.trans (ownPred_eq_true hb).1.symm)
    have hnone := find?_removeFirst_eq_none hpair
    constructor
    · rw [delete_key, hk]
    · rw [delete_key, hnone]

/-- Witness for C8: deleting the only record of `"u1"` succeeds once and
the immediate second delete of the same id returns `False` without
touching the store; a delete by the non-owner `"u2"` returns `False`. -/
theorem delete_key_spec_witness :
    (LiteLLMKeys.delete_key "k1" "u2" [wuRec] = (false, [wuRec]))
    ∧ (LiteLLMKeys.delete_key "k1" "u1" [wuRec]
        = (true, LiteLLMKeys.removeFirst (LiteLLMKeys.ownPred "k1" "u1") [wuRec])
      ∧ LiteLLMKeys.delete_key "k1" "u1"
            (LiteLLMKeys.removeFirst (LiteLLMKeys.ownPred "k1" "u1") [wuRec])
          = (false, LiteLLMKeys.removeFirst
              (LiteLLMKeys.ownPred "k1" "u1") [wuRec])) :=
  ⟨(delete_key_spec [wuRec] "k1" "u2" (by decide)).1 (by decide),
    (delete_key_spec [wuRec] "k1" "u1" (by decide)).2 wuRec (by decide)⟩

/-- An authenticated identity whose role is outside the allow-set
`["admin", "user"]`. -/
def blockedUser : Router.UserModel := { id := "u9", role := "pending" }

/-- C9 evaluation: for a role outside the allow-set, five of the six
endpoints surface the denial as a 403, but the list endpoint
(`get_litellm_keys`) lacks the `except HTTPException: raise` clause of
its siblings, so its blanket exception handler converts the raised 403
into a 500 — the denial is not surfaced as 403 on every endpoint. -/
theorem forbidden_status_behavior :
    Router.get_litellm_keys blockedUser 0 100 []
        = .error ⟨500, "Failed to retrieve LiteLLM keys"⟩
    ∧ Router.get_litellm_key "k1" blockedUser []
        = .error ⟨403, Router.accessDeniedDetail⟩
    ∧ Router.create_litellm_key blockedUser
          { key_name := "k", api_key := "s" } (.ok []) "id" 0 []
        = (.error ⟨403, Router.accessDeniedDetail⟩, [])
    ∧ Router.update_litellm_key blockedUser "k1" {} (.ok []) 0 []
        = (.error ⟨403, Router.accessDeniedDetail⟩, [])
    ∧ Router.delete_litellm_key blockedUser "k1" []
        = (.error ⟨403, Router.accessDeniedDetail⟩, [])
    ∧ Router.get_accessible_litellm_keys blockedUser (.ok []) []
        = .error ⟨403, Router.accessDeniedDetail⟩ :=
  ⟨rfl, rfl, rfl, rfl, rfl, rfl⟩

/-- C10: when the requester's resolved group set is empty — in particular
when the group-directory lookup raised and `get_user_groups` silently
mapped the failure to `[]` — the list-accessible endpoint returns the
empty list for *every* store (it never consults it), so even records
owned by the requester are omitted. -/
theorem accessible_empty_groups (user : Router.UserModel)
    (lookup : Router.GroupLookup)
    (haccess : Router.check_litellm_access user = true)
    (hempty : Router.get_user_groups lookup = []) :
    (∀ db, Router.get_accessible_litellm_keys user lookup db = .ok [])
    ∧ Router.get_user_groups (Except.error ()) = [] := by
  refine ⟨fun db => ?_, rfl⟩
  rw [Router.get_accessible_litellm_keys, if_neg (by rw [haccess]; simp),
    hempty]
  rfl

/-- Witness for C10: user `"u1"` (role `"user"`) with a failed group
lookup gets an empty list even though the store holds their own record. -/
theorem accessible_empty_groups_witness :
    Router.get_accessible_litellm_keys ⟨"u1", "user"⟩ (Except.error ()) [wuRec]
      = .ok [] :=
  (accessible_empty_groups ⟨"u1", "user"⟩ (Except.error ())
    (by decide) rfl).1 [wuRec]
